import Mathlib

set_option maxRecDepth 100000

/-!
Shallow embedding of the zeta persister's merge/drain engine
(`src/persister/src/main.rs`) and proofs about it.

The Rust program drains a SQLite write-ahead log, decodes each entry's
comma-separated payload into a row of `f64` values, groups rows by
destination parquet path, and for each destination merges them with the
existing parquet snapshot via an in-memory DuckDB connection:

* if the parquet file exists, `CREATE TEMP TABLE tmp AS SELECT * FROM
  read_parquet(path)` (the temp table inherits the file's column width and
  carries NO key constraint);
* otherwise `CREATE TEMP TABLE tmp ( time TIMESTAMP PRIMARY KEY, f0 DOUBLE,
  ... )` with one `DOUBLE` column per value of the FIRST new record;
* `INSERT INTO tmp VALUES ...` (see `compose_insert_query`): each record is
  serialized with exactly `fields` value cells, shorter rows padded with
  `NULL`, longer rows truncated;
* `COPY (SELECT * FROM tmp ORDER BY time ASC) TO path` rewrites the file.

The DuckDB statements are embedded by their effects: the INSERT fails when
the serialized column count differs from the table's column count, the
PRIMARY KEY rejects a batch containing duplicate `time` values (only in the
fresh-table case, since `CREATE TABLE AS SELECT` drops constraints), and
`ORDER BY time ASC` is a sort by timestamp.  `f64` payload values are
modelled exactly (`F64` below); no claim below depends on float rounding of
in-range decimals.
-/

/-- An exact scaled-decimal number `mant * 10 ^ exp10`, the mantissa
carrying the sign.  `mkDec10` produces the canonical form (a nonzero
mantissa not divisible by 10, zero as `(0, 0)`), so equal values built by
it are syntactically equal. -/
structure Dec10 where
  mant : Int
  exp10 : Int
deriving DecidableEq, Repr

/-- Divide out all factors of 10 of a nonzero `m`, `fuel`-bounded:
returns the stripped mantissa and the number of factors removed. -/
def stripTens : Nat → Nat → Nat × Nat
  | 0, m => (m, 0)
  | fuel + 1, m =>
    if m % 10 == 0 && m != 0 then
      let (mA, s) := stripTens fuel (m / 10)
      (mA, s + 1)
    else (m, 0)

/-- Canonical `Dec10` for the value `(-1)^neg * m * 10^e`. -/
def mkDec10 (neg : Bool) (m : Nat) (e : Int) : Dec10 :=
  if m == 0 then ⟨0, 0⟩
  else
    let (mA, s) := stripTens m m
    ⟨if neg then -(mA : Int) else (mA : Int), e + s⟩

/-- A parsed `f64` value: Rust `f64::from_str` yields either a finite value
(modelled by its exact decimal value), an infinity, or a NaN. -/
inductive F64 where
  | finite (d : Dec10)
  | inf (neg : Bool)
  | nan
deriving DecidableEq, Repr

/-- `Record` from `main.rs` lines 14-18: destination path, timestamp
(milliseconds since epoch, the source's `DateTime<Utc>`), payload values. -/
structure Record where
  destination : String
  time : Int
  values : List F64
deriving DecidableEq, Repr

/-- One materialized snapshot row: the `time` column and the `fields` value
cells, a cell being `none` when the SQL literal was `NULL`. -/
abbrev SRow := Int × List (Option F64)

/-- A parquet snapshot file: its schema width (number of value columns) and
its rows. -/
structure Snapshot where
  width : Nat
  rows : List SRow
deriving DecidableEq, Repr

/-- The data directory, as a map from parquet path to snapshot file,
represented as an association list so states are decidably comparable. -/
abbrev FileSystem := List (String × Snapshot)

/-- File lookup by path. -/
def lookupFs : FileSystem → String → Option Snapshot
  | [], _ => none
  | (p, s) :: rest, q => if p == q then some s else lookupFs rest q

/-- Write (create or overwrite) the file at `path`. -/
def updateFs : FileSystem → String → Snapshot → FileSystem
  | [], path, s => [(path, s)]
  | (p, old) :: rest, path, s =>
    if p == path then (p, s) :: rest else (p, old) :: updateFs rest path s

instance {ε α : Type} [DecidableEq ε] [DecidableEq α] : DecidableEq (Except ε α) :=
  fun a b =>
    match a, b with
    | Except.ok x, Except.ok y =>
      if h : x = y then isTrue (by rw [h]) else isFalse (by simp [h])
    | Except.error x, Except.error y =>
      if h : x = y then isTrue (by rw [h]) else isFalse (by simp [h])
    | Except.ok _, Except.error _ => isFalse (by simp)
    | Except.error _, Except.ok _ => isFalse (by simp)

/-- Errors surfaced by the embedded DuckDB statements of
`merge_new_records`: an `INSERT` whose tuples have the wrong column count,
and an `INSERT` violating the `time TIMESTAMP PRIMARY KEY` constraint. -/
inductive MergeErr where
  | columnCountMismatch
  | primaryKeyViolation
deriving DecidableEq, Repr

/-- `main.rs` lines 24-32: the column count is computed by folding `+1`
over the FIRST new record's values (`first.values.iter().fold(0, |acc, _| acc + 1)`). -/
def recordFields (first : Record) : Nat :=
  first.values.foldl (fun acc _ => acc + 1) 0

/-- The cells of one serialized tuple of `compose_insert_query`
(`main.rs` lines 62-68), kept as SQL values rather than strings: for each
column index `i < fields`, `record.values.get(i)` if present, else `NULL`. -/
def insertedRow (fields : Nat) (record : Record) : SRow :=
  (record.time, (List.range fields).map (fun i => record.values.get? i))

/-- Row order used by `COPY (SELECT * FROM tmp ORDER BY time ASC)`. -/
def timeLe (a b : SRow) : Prop := a.1 ≤ b.1

instance : DecidableRel timeLe := fun a b => Int.decLe a.1 b.1

instance : IsTotal SRow timeLe := ⟨fun a b => Int.le_total a.1 b.1⟩

instance : IsTrans SRow timeLe := ⟨fun _ _ _ h1 h2 => Int.le_trans h1 h2⟩

/-- `merge_new_records` (`main.rs` lines 20-56) as a state transformer on
the data directory.  Empty batch: early `return Ok(())` (lines 28-31),
nothing touched.  Existing file: the temp table is loaded from the parquet
file (width `snap.width`, no constraint), the insert fails unless the
serialized width `fields` matches, and on success the file is rewritten
with all rows sorted by time.  No file: the temp table is created with
`fields` columns and `time` as PRIMARY KEY, so a batch with duplicate
timestamps fails and nothing is written; otherwise the sorted batch becomes
the new file. -/
def mergeNewRecords (fs : FileSystem) (parquetPath : String)
    (newRecords : List Record) : Except MergeErr Unit × FileSystem :=
  match newRecords.head? with
  | none => (Except.ok (), fs)
  | some first =>
    let fields := recordFields first
    let inserted := newRecords.map (insertedRow fields)
    match lookupFs fs parquetPath with
    | some snap =>
      if fields = snap.width then
        (Except.ok (),
          updateFs fs parquetPath
            ⟨snap.width, List.insertionSort timeLe (snap.rows ++ inserted)⟩)
      else (Except.error MergeErr.columnCountMismatch, fs)
    | none =>
      if ((newRecords.map (fun r => r.time)).Nodup : Prop) then
        (Except.ok (),
          updateFs fs parquetPath ⟨fields, List.insertionSort timeLe inserted⟩)
      else (Except.error MergeErr.primaryKeyViolation, fs)

/-!
## The payload decoder of `load_wal`

`main.rs` lines 187-200 split the payload on `","`, trim each field, and
parse it with Rust's `str::parse::<f64>()`.  The parse is modelled from the
documented `f64::from_str` grammar: an optional sign, then (case
insensitively) `inf`, `infinity`, `nan`, or a decimal number — digits with
an optional point and an optional `e`/`E` exponent, at least one mantissa
digit required.  A decimal whose exact magnitude reaches the binary64
round-to-nearest overflow bound parses to an infinity; any other decimal is
kept as its exact decimal value.  The string operations (`split(",")`,
per-field `trim` of whitespace, lowercasing for the special keywords) are
written structurally over character lists so that every run of the decoder
reduces inside the kernel.
-/

/-- Rust `str::split(',')`: the fields between the separator occurrences,
empty fields kept (an empty input yields one empty field). -/
def splitOnChar (sep : Char) : List Char → List (List Char)
  | [] => [[]]
  | c :: rest =>
    let r := splitOnChar sep rest
    if c == sep then [] :: r
    else
      match r with
      | f :: fs => (c :: f) :: fs
      | [] => [[c]]

/-- ASCII whitespace, the fragment of Rust's `char::is_whitespace` the
claims exercise. -/
def isWhitespaceChar (c : Char) : Bool :=
  c == ' ' || c == '\t' || c == '\n' || c == '\r'

/-- Rust `str::trim`: drop leading and trailing whitespace. -/
def trimChars (cs : List Char) : List Char :=
  ((cs.dropWhile isWhitespaceChar).reverse.dropWhile isWhitespaceChar).reverse

/-- Numeric value of a digit run, most significant digit first. -/
def digitsVal (ds : List Char) : Nat :=
  ds.foldl (fun acc c => acc * 10 + (c.toNat - 48)) 0

/-- Split off a leading run of ASCII digits. -/
def takeDigits (cs : List Char) : List Char × List Char :=
  (cs.takeWhile Char.isDigit, cs.dropWhile Char.isDigit)

/-- Parse the decimal part of the `f64` grammar (after the optional sign):
returns `(mantissa digits as a number, number of fraction digits, exponent)`. -/
def parseDecimalParts (cs : List Char) : Option (Nat × Nat × Int) :=
  let (ds1, r1) := takeDigits cs
  let (ds2, r2) :=
    match r1 with
    | '.' :: rest => takeDigits rest
    | _ => ([], r1)
  if ds1 = [] ∧ ds2 = [] then none
  else
    match r2 with
    | [] => some (digitsVal (ds1 ++ ds2), ds2.length, 0)
    | 'e' :: r3 =>
      let (sgn, r4) :=
        match r3 with
        | '+' :: rest => ((1 : Int), rest)
        | '-' :: rest => ((-1 : Int), rest)
        | _ => ((1 : Int), r3)
      let (eds, r5) := takeDigits r4
      if eds = [] ∨ r5 ≠ [] then none
      else some (digitsVal (ds1 ++ ds2), ds2.length, sgn * digitsVal eds)
    | _ => none

/-- Does `m * 10 ^ e` reach the smallest magnitude at which IEEE-754
round-to-nearest-even overflows a binary64 to infinity, `2^1024 - 2^970`? -/
def overflowsF64 (m : Nat) (e : Int) : Bool :=
  if 0 ≤ e then 2 ^ 1024 - 2 ^ 970 ≤ m * 10 ^ e.toNat
  else (2 ^ 1024 - 2 ^ 970) * 10 ^ (-e).toNat ≤ m

/-- Model of Rust's `f64::from_str` (`val.parse::<f64>()` at `main.rs`
line 191): `some` exactly on the strings the grammar accepts. -/
def rustParseF64 (s : List Char) : Option F64 :=
  let cs := s.map Char.toLower
  let (neg, body) :=
    match cs with
    | '+' :: rest => (false, rest)
    | '-' :: rest => (true, rest)
    | _ => (false, cs)
  if body = ['i', 'n', 'f'] ∨ body = ['i', 'n', 'f', 'i', 'n', 'i', 't', 'y'] then
    some (F64.inf neg)
  else if body = ['n', 'a', 'n'] then some F64.nan
  else
    match parseDecimalParts body with
    | none => none
    | some (m, fl, e) =>
      if overflowsF64 m (e - fl) then some (F64.inf neg)
      else some (F64.finite (mkDec10 neg m (e - fl)))

/-- The parse loop of `load_wal` (`main.rs` lines 189-200): the values are
accumulated in order, and any parse failure fails the whole traversal (the
source's early `return`). -/
def parseValues : List (List Char) → Option (List F64)
  | [] => some []
  | v :: rest =>
    match rustParseF64 v with
    | some x => (parseValues rest).map (fun vs => x :: vs)
    | none => none

/-- The fields `load_wal` parses: `payload.split(",").map(|f| f.trim())`
(`main.rs` line 188). -/
def payloadFields (payload : String) : List (List Char) :=
  (splitOnChar ',' payload.toList).map trimChars

/-- Decoding one payload (`main.rs` lines 187-200): split on `","`, trim
each field, parse every field. -/
def decodePayload (payload : String) : Option (List F64) :=
  parseValues (payloadFields payload)

/-!
## The drain cycle (`load_wal`) and the main loop
-/

/-- One row of the WAL store as read by `SELECT * FROM wal`
(`main.rs` lines 174-187): the three columns `load_wal` uses. -/
structure WalRow where
  project_id : String
  schema : String
  payload : String
deriving DecidableEq, Repr

/-- `main.rs` line 203 assigns the placeholder `"a"` to the record's
`time : DateTime<Utc>` field (a stub that does not even type-check in
Rust); it is modelled as a fixed constant timestamp, the same for every
drained record. -/
def placeholderTime : Int := 0

/-- The WAL traversal of `load_wal` (`main.rs` lines 175-207): each row
yields a `Record` whose destination is `{data_root}/{project_id}/{schema}`;
a payload that fails to decode aborts the whole traversal (the source's
`return Ok(())` at line 197). -/
def drainRecords (dataRoot : String) : List WalRow → Option (List Record)
  | [] => some []
  | row :: rest =>
    match decodePayload row.payload with
    | none => none
    | some vals =>
      (drainRecords dataRoot rest).map
        (fun recs =>
          { destination := dataRoot ++ "/" ++ row.project_id ++ "/" ++ row.schema,
            time := placeholderTime,
            values := vals } :: recs)

/-- Insert a record into its destination's group, appending a new group at
the end on first sight of a destination. -/
def addToGroup (groups : List (String × List Record)) (r : Record) :
    List (String × List Record) :=
  match groups with
  | [] => [(r.destination, [r])]
  | (k, v) :: rest =>
    if k == r.destination then (k, v ++ [r]) :: rest
    else (k, v) :: addToGroup rest r

/-- `into_group_map_by(|r| r.destination)` at `main.rs` line 209: records
bucketed by destination, each bucket in drain order.  (The source iterates
the resulting `HashMap` in unspecified key order; it is modelled as
first-occurrence order — no property proved below depends on the order in
which distinct destinations are merged.) -/
def groupByDestination (recs : List Record) : List (String × List Record) :=
  recs.foldl addToGroup []

/-- The merge loop of `load_wal` (`main.rs` lines 211-213): destinations
are merged in sequence and `merge_new_records(..)?` propagates the first
error, leaving the remaining destinations unmerged but keeping the files
already rewritten. -/
def mergeGroups (fs : FileSystem) :
    List (String × List Record) → Except MergeErr Unit × FileSystem
  | [] => (Except.ok (), fs)
  | (k, v) :: rest =>
    match mergeNewRecords fs k v with
    | (Except.ok _, fsA) => mergeGroups fsA rest
    | (Except.error e, fsA) => (Except.error e, fsA)

/-- One drain cycle, `load_wal` (`main.rs` lines 160-216), over the WAL
rows pending at that instant: decode every row (any malformed payload makes
the whole cycle return `Ok` early, having merged nothing), group by
destination, and merge each group. -/
def loadWal (fs : FileSystem) (dataRoot : String) (rows : List WalRow) :
    Except MergeErr Unit × FileSystem :=
  match drainRecords dataRoot rows with
  | none => (Except.ok (), fs)
  | some recs => mergeGroups fs (groupByDestination recs)

/-- The polling loop of `main` (`main.rs` lines 229-233), run over a finite
script of cycles (the WAL contents seen on successive polls): `loop {
load_wal().await?; sleep }` — an error from `load_wal` propagates through
`?` out of `main`, ending the loop; otherwise the loop continues with the
next cycle. -/
def mainLoop (fs : FileSystem) (dataRoot : String) :
    List (List WalRow) → Except MergeErr FileSystem
  | [] => Except.ok fs
  | c :: rest =>
    match loadWal fs dataRoot c with
    | (Except.ok _, fsA) => mainLoop fsA dataRoot rest
    | (Except.error e, _) => Except.error e

/-!
## `compose_insert_query` and its serialization

`main.rs` lines 58-74: each record becomes one `(...)` tuple of the
`INSERT` statement — the quoted timestamp rendered with chrono's
`"%Y-%m-%d %H:%M:%S%.3f"`, then exactly `fields` cells, `record.values.get(i)`
when present and the literal `NULL` otherwise.
-/

/-- Left-pad a digit string with zeros to width `k`. -/
def padZeros (k : Nat) (s : String) : String :=
  String.mk (List.replicate (k - s.length) '0') ++ s

/-- Gregorian civil date from days since 1970-01-01 (Howard Hinnant's
`civil_from_days`), as chrono renders UTC dates. -/
def civilFromDays (z0 : Int) : Int × Nat × Nat :=
  let z := z0 + 719468
  let era := z.fdiv 146097
  let doe := (z - era * 146097).toNat
  let yoe := (doe - doe / 1460 + doe / 36524 - doe / 146096) / 365
  let doy := doe - (365 * yoe + yoe / 4 - yoe / 100)
  let mp := (5 * doy + 2) / 153
  let d := doy - (153 * mp + 2) / 5 + 1
  let m := if mp < 10 then mp + 3 else mp - 9
  let y := (yoe : Int) + era * 400 + (if m ≤ 2 then 1 else 0)
  (y, m, d)

/-- chrono's `record.time.format("%Y-%m-%d %H:%M:%S%.3f")` (`main.rs`
line 69) on a UTC timestamp in milliseconds since the epoch. -/
def formatTime (t : Int) : String :=
  let days := t.fdiv 86400000
  let ms := (t - days * 86400000).toNat
  let ymd := civilFromDays days
  padZeros 4 (toString ymd.1) ++ "-" ++ padZeros 2 (toString ymd.2.1) ++ "-" ++
    padZeros 2 (toString ymd.2.2) ++ " " ++
    padZeros 2 (toString (ms / 3600000)) ++ ":" ++
    padZeros 2 (toString (ms / 60000 % 60)) ++ ":" ++
    padZeros 2 (toString (ms / 1000 % 60)) ++ "." ++
    padZeros 3 (toString (ms % 1000))

/-- Rust's `format!("{}", v)` on an `f64` (`main.rs` line 64): the shortest
decimal rendering — on the exact decimal values of `F64` that is the plain
decimal form (`1` for `1.0`, `0.5` for `0.5`), and `inf`, `-inf`, `NaN` for
the non-finite values. -/
def formatF64 : F64 → String
  | F64.finite d =>
    if 0 ≤ d.exp10 then toString (d.mant * ((10 ^ d.exp10.toNat : Nat) : Int))
    else
      let k := (-d.exp10).toNat
      let a := d.mant.natAbs
      (if d.mant < 0 then "-" else "") ++ toString (a / 10 ^ k) ++ "." ++
        padZeros k (toString (a % 10 ^ k))
  | F64.inf neg => if neg then "-inf" else "inf"
  | F64.nan => "NaN"

/-- Rust's `Vec::join(", ")`. -/
def joinSep (sep : String) : List String → String
  | [] => ""
  | [x] => x
  | x :: y :: rest => x ++ sep ++ joinSep sep (y :: rest)

/-- The `colls` loop of `compose_insert_query` (`main.rs` lines 62-68): one
serialized cell per column index in `0..fields` — the formatted value when
`record.values.get(i)` is present, the literal `NULL` otherwise. -/
def recordCells (fields : Nat) (record : Record) : List String :=
  (List.range fields).map (fun i =>
    match record.values.get? i with
    | some v => formatF64 v
    | none => "NULL")

/-- `compose_insert_query` (`main.rs` lines 58-74). -/
def composeInsertQuery (table : String) (fields : Nat)
    (records : List Record) : String :=
  let sql := "INSERT INTO " ++ table ++ " VALUES"
  let rows := records.map (fun record =>
    "('" ++ formatTime record.time ++ "', " ++
      joinSep ", " (recordCells fields record) ++ ")")
  sql ++ " " ++ joinSep ", " rows

/-!
## The filesystem-operation trace of `merge_new_records`

For the snapshot writer's replacement discipline, the file operations the
routine performs are recorded in order: the existence probe at line 35 is
followed either by `read_parquet` of the destination (line 37), and the
single `COPY ... TO '{parquet_path}'` at line 52 writes DIRECTLY to the
destination path — there is no temporary file and no rename anywhere in
the routine.  An operation is emitted only when the corresponding SQL
statement is reached and succeeds.
-/

/-- A filesystem operation of the snapshot writer. -/
inductive FsOp where
  | read (path : String)
  | write (path : String)
  | rename (src dst : String)
deriving DecidableEq, Repr

/-- The ordered file operations one `merge_new_records` call performs,
mirroring `mergeNewRecords` branch for branch. -/
def mergeFsOps (fs : FileSystem) (parquetPath : String)
    (newRecords : List Record) : List FsOp :=
  match newRecords.head? with
  | none => []
  | some first =>
    match lookupFs fs parquetPath with
    | some snap =>
      if recordFields first = snap.width then
        [FsOp.read parquetPath, FsOp.write parquetPath]
      else [FsOp.read parquetPath]
    | none =>
      if ((newRecords.map (fun r => r.time)).Nodup : Prop) then
        [FsOp.write parquetPath]
      else []

/-!
## Definitions following the spec's words, for comparison with the code

Each `spec...` definition below transcribes a sentence of the spec, to be
compared against the corresponding definition taken from the source.
-/

/-- Following the spec's words (§4.4 step 1): "Determine `W`: if the
existing set is non-empty, `W = W_old`; otherwise `W` is the length of the
first new row." -/
def specMergeWidth (fs : FileSystem) (path : String)
    (recs : List Record) : Option Nat :=
  match lookupFs fs path with
  | some snap =>
    if snap.rows ≠ [] then some snap.width
    else recs.head?.map (fun r => r.values.length)
  | none => recs.head?.map (fun r => r.values.length)

/-- Following the spec's words (§4.5): the writer's operation sequence ends
by writing a temporary path and atomically renaming it over the
destination. -/
def specAtomicReplace (ops : List FsOp) (dest : String) : Bool :=
  match ops.reverse with
  | FsOp.rename src dst :: FsOp.write w :: _ => src == w && dst == dest && src != dest
  | _ => false

/-- Following the spec's words (§4.1): the decoder succeeds exactly when
every comma-separated, trimmed field parses as a FINITE float64. -/
def specAllFinite (payload : String) : Bool :=
  (payloadFields payload).all (fun f =>
    match rustParseF64 f with
    | some (F64.finite _) => true
    | _ => false)

/-- What the code actually requires of the fields: every one parses under
Rust's `f64` grammar, finite or not. -/
def allFieldsParse (payload : String) : Bool :=
  (payloadFields payload).all (fun f => (rustParseF64 f).isSome)

/-!
## Concrete fixtures used by counterexamples and witnesses
-/

/-- A data directory holding one width-3 snapshot with one row. -/
def fsWidth3 : FileSystem :=
  [("p", ⟨3, [(0, [some (F64.finite ⟨1, 0⟩), some (F64.finite ⟨2, 0⟩),
                   some (F64.finite ⟨3, 0⟩)])]⟩)]

/-- A new record of width 2 destined for `fsWidth3`'s snapshot. -/
def recWidth2 : Record := ⟨"p", 5, [F64.finite ⟨4, 0⟩, F64.finite ⟨5, 0⟩]⟩

/-- A data directory holding one width-1 snapshot with one row at time 2,
value 5. -/
def fsDup : FileSystem := [("q", ⟨1, [(2, [some (F64.finite ⟨5, 0⟩)])]⟩)]

/-- A new record at the same time 2 with the different value 7. -/
def recDup : Record := ⟨"q", 2, [F64.finite ⟨7, 0⟩]⟩

/-- A well-formed WAL entry (payload `"3.0"`). -/
def walGood : WalRow := ⟨"a", "s", "3.0"⟩

/-- The malformed WAL entry of spec Scenario D (payload `"1.0, 2.0, x"`),
for a different destination. -/
def walBad : WalRow := ⟨"b", "s", "1.0, 2.0, x"⟩

/-- A width-1 record used by the write-path counterexample. -/
def recOne : Record := ⟨"p", 1, [F64.finite ⟨1, 0⟩]⟩

/-- A snapshot holding one row at time 3, value 5. -/
def snapT3 : Snapshot := ⟨1, [(3, [some (F64.finite ⟨5, 0⟩)])]⟩

/-- A record at the same time 3 with value 7. -/
def recT3 : Record := ⟨"w", 3, [F64.finite ⟨7, 0⟩]⟩

/-- Two records with EQUAL timestamps for one fresh destination. -/
def recEq1 : Record := ⟨"w", 4, [F64.finite ⟨1, 0⟩]⟩

/-- Second record at the same timestamp as `recEq1`. -/
def recEq2 : Record := ⟨"w", 4, [F64.finite ⟨2, 0⟩]⟩

/-!
## Theorems
-/

/-- The assertions of `test_compose_insert_query` (`main.rs` lines
130-156), validating the embedding of `compose_insert_query` against the
source's own expected strings (2023-01-01/02/03 00:00:00 UTC are
1672531200000, 1672617600000, 1672704000000 in epoch milliseconds). -/
theorem composeInsertQuery_test_vector :
    composeInsertQuery "foo" 0 [] = "INSERT INTO foo VALUES " ∧
    composeInsertQuery "foo" 1 [] = "INSERT INTO foo VALUES " ∧
    composeInsertQuery "foo" 3
      [{ destination := "", time := 1672531200000,
         values := [F64.finite ⟨1, 0⟩, F64.finite ⟨2, 0⟩, F64.finite ⟨3, 0⟩] },
       { destination := "", time := 1672617600000,
         values := [F64.finite ⟨1, 0⟩, F64.finite ⟨2, 0⟩] },
       { destination := "", time := 1672704000000,
         values := [F64.finite ⟨1, 0⟩, F64.finite ⟨2, 0⟩, F64.finite ⟨3, 0⟩,
                    F64.finite ⟨4, 0⟩] }] =
      "INSERT INTO foo VALUES ('2023-01-01 00:00:00.000', 1, 2, 3), ('2023-01-02 00:00:00.000', 1, 2, NULL), ('2023-01-03 00:00:00.000', 1, 2, 3)" := by
  refine ⟨by decide, by decide, by decide⟩

/-- Looking up the path just written returns the written snapshot. -/
theorem lookupFs_updateFs (fs : FileSystem) (path : String) (s : Snapshot) :
    lookupFs (updateFs fs path s) path = some s := by
  induction fs with
  | nil => simp [updateFs, lookupFs]
  | cons hd rest ih =>
    obtain ⟨p, old⟩ := hd
    by_cases h : p == path
    · simp [updateFs, lookupFs, h]
    · simp only [updateFs, lookupFs, h, if_neg, Bool.not_eq_true] at *
      simp [h, ih]

/-- The rows written by the merge are insertion-sorted by time. -/
theorem chain_insertionSort (l : List SRow) :
    List.Chain' timeLe (List.insertionSort timeLe l) :=
  (List.sorted_insertionSort timeLe l).chain'

/-- C1: every snapshot produced by a successful merge of a non-empty batch
is sorted by time — adjacent rows have non-decreasing `time`. -/
theorem merge_snapshot_sorted (fs : FileSystem) (path : String)
    (first : Record) (rest : List Record) (s : Snapshot)
    (hok : (mergeNewRecords fs path (first :: rest)).1 = Except.ok ())
    (hs : lookupFs (mergeNewRecords fs path (first :: rest)).2 path = some s) :
    List.Chain' timeLe s.rows := by
  cases hl : lookupFs fs path with
  | some snap =>
    simp only [mergeNewRecords, List.head?_cons, hl] at hok hs
    by_cases hw : recordFields first = snap.width
    · rw [if_pos hw] at hs
      rw [lookupFs_updateFs] at hs
      cases hs
      exact chain_insertionSort _
    · rw [if_neg hw] at hok
      simp at hok
  | none =>
    simp only [mergeNewRecords, List.head?_cons, hl] at hok hs
    by_cases hn : ((first :: rest).map (fun r => r.time)).Nodup
    · rw [if_pos hn] at hs
      rw [lookupFs_updateFs] at hs
      cases hs
      exact chain_insertionSort _
    · rw [if_neg hn] at hok
      simp at hok

theorem merge_snapshot_sorted_witness :
    List.Chain' timeLe [((1 : Int), [some (F64.finite ⟨1, 0⟩)])] :=
  merge_snapshot_sorted [] "p" ⟨"p", 1, [F64.finite ⟨1, 0⟩]⟩ []
    ⟨1, [(1, [some (F64.finite ⟨1, 0⟩)])]⟩ (by decide) (by decide)

/-- C8: merging an empty batch leaves the data directory unchanged, and so
does a whole drain cycle with no pending entries. -/
theorem empty_batch_noop :
    (∀ (fs : FileSystem) (path : String),
        mergeNewRecords fs path [] = (Except.ok (), fs)) ∧
    (∀ (fs : FileSystem) (dataRoot : String),
        loadWal fs dataRoot [] = (Except.ok (), fs)) :=
  ⟨fun _ _ => rfl, fun _ _ => rfl⟩

/-- Folding `+1` over a list counts its length. -/
theorem foldl_succ_length (l : List F64) (n : Nat) :
    l.foldl (fun acc _ => acc + 1) n = n + l.length := by
  induction l generalizing n with
  | nil => simp
  | cons x xs ih => simp [List.foldl, ih]; omega

/-- C2 counterexample: with a non-empty width-3 snapshot on disk and a
first new row of length 2, the spec's rule says `W = 3` but the code's
materialization width is 2 (always the first new row's length); the merge
then fails on column count instead of materializing at width 3. -/
theorem merge_width_counterexample :
    specMergeWidth fsWidth3 "p" [recWidth2] = some 3 ∧
    recordFields recWidth2 = 2 ∧
    mergeNewRecords fsWidth3 "p" [recWidth2] =
      (Except.error MergeErr.columnCountMismatch, fsWidth3) := by
  refine ⟨by decide, by decide, by decide⟩

/-- C2 amended: the width used to serialize the batch always equals the
length of the first new row, regardless of any existing snapshot; when an
existing snapshot's width differs from it, the merge fails with a column
count error instead of materializing at `W_old`. -/
theorem merge_width_amended (fs : FileSystem) (path : String)
    (first : Record) (rest : List Record) :
    recordFields first = first.values.length ∧
    (∀ snap, lookupFs fs path = some snap →
      snap.width ≠ recordFields first →
      mergeNewRecords fs path (first :: rest) =
        (Except.error MergeErr.columnCountMismatch, fs)) := by
  constructor
  · simpa using foldl_succ_length first.values 0
  · intro snap hl hw
    simp only [mergeNewRecords, List.head?_cons, hl]
    rw [if_neg (fun h => hw h.symm)]

theorem merge_width_amended_witness :
    recordFields recWidth2 = recWidth2.values.length ∧
    mergeNewRecords fsWidth3 "p" [recWidth2] =
      (Except.error MergeErr.columnCountMismatch, fsWidth3) :=
  ⟨(merge_width_amended fsWidth3 "p" recWidth2 []).1,
   (merge_width_amended fsWidth3 "p" recWidth2 []).2 ⟨3, [(0, [some (F64.finite ⟨1, 0⟩),
     some (F64.finite ⟨2, 0⟩), some (F64.finite ⟨3, 0⟩)])]⟩ (by decide) (by decide)⟩

/-- C3 counterexample: existing snapshot with a row at `t = 2` (value 5),
new batch with a row at the same `t` (value 7): the resulting snapshot
holds TWO rows at `t = 2`, not exactly one. -/
theorem duplicate_timestamp_counterexample :
    (mergeNewRecords fsDup "q" [recDup]).1 = Except.ok () ∧
    ((lookupFs (mergeNewRecords fsDup "q" [recDup]).2 "q").getD
        ⟨0, []⟩).rows.countP (fun row => row.1 == 2) = 2 := by
  refine ⟨by decide, by decide⟩

/-- C3 amended: for EVERY merge where the existing snapshot contains a
row at timestamp `t` and the (width-matching) batch contains a record at
the same `t`, the merge succeeds and the resulting snapshot retains BOTH
rows — the existing row is still present, the new record's padded row is
present, and at least two rows carry timestamp `t`; no last-write-wins
replacement happens. -/
theorem duplicate_timestamp_amended (fs : FileSystem) (path : String)
    (first : Record) (rest : List Record) (snap : Snapshot)
    (t : Int) (cells : List (Option F64)) (r : Record)
    (h1 : lookupFs fs path = some snap)
    (h2 : (t, cells) ∈ snap.rows)
    (h3 : r ∈ first :: rest)
    (h4 : r.time = t)
    (h5 : recordFields first = snap.width) :
    (mergeNewRecords fs path (first :: rest)).1 = Except.ok () ∧
    (∀ sA, lookupFs (mergeNewRecords fs path (first :: rest)).2 path = some sA →
      (t, cells) ∈ sA.rows ∧
      (t, (List.range snap.width).map (fun i => r.values.get? i)) ∈ sA.rows ∧
      2 ≤ sA.rows.countP (fun row => row.1 == t)) := by
  simp only [mergeNewRecords, List.head?_cons, h1]
  rw [if_pos h5]
  refine ⟨rfl, ?_⟩
  intro sA hsA
  rw [lookupFs_updateFs] at hsA
  cases hsA
  have hperm := List.perm_insertionSort timeLe
    (snap.rows ++ (first :: rest).map (insertedRow (recordFields first)))
  have hins : insertedRow (recordFields first) r ∈
      (first :: rest).map (insertedRow (recordFields first)) :=
    List.mem_map_of_mem _ h3
  have hinsEq : insertedRow (recordFields first) r =
      (t, (List.range snap.width).map (fun i => r.values.get? i)) := by
    simp [insertedRow, h4, h5]
  refine ⟨?_, ?_, ?_⟩
  · exact hperm.mem_iff.mpr (List.mem_append_left _ h2)
  · exact hperm.mem_iff.mpr (List.mem_append_right _ (hinsEq ▸ hins))
  · show 2 ≤ (List.insertionSort timeLe
      (snap.rows ++ (first :: rest).map (insertedRow (recordFields first)))).countP
      (fun row => row.1 == t)
    rw [hperm.countP_eq, List.countP_append]
    have hc1 : 0 < snap.rows.countP (fun row => row.1 == t) :=
      List.countP_pos_iff.mpr ⟨(t, cells), h2, by simp⟩
    have hc2 : 0 <
        ((first :: rest).map (insertedRow (recordFields first))).countP
          (fun row => row.1 == t) :=
      List.countP_pos_iff.mpr ⟨insertedRow (recordFields first) r, hins,
        by simp [insertedRow, h4]⟩
    omega

theorem duplicate_timestamp_amended_witness :
    (mergeNewRecords fsDup "q" [recDup]).1 = Except.ok () ∧
    (((2 : Int), [some (F64.finite ⟨5, 0⟩)]) ∈
        [((2 : Int), [some (F64.finite ⟨5, 0⟩)]),
         ((2 : Int), [some (F64.finite ⟨7, 0⟩)])] ∧
      ((2 : Int), [some (F64.finite ⟨7, 0⟩)]) ∈
        [((2 : Int), [some (F64.finite ⟨5, 0⟩)]),
         ((2 : Int), [some (F64.finite ⟨7, 0⟩)])] ∧
      2 ≤ [((2 : Int), [some (F64.finite ⟨5, 0⟩)]),
           ((2 : Int), [some (F64.finite ⟨7, 0⟩)])].countP
            (fun row => row.1 == 2)) := by
  have h := duplicate_timestamp_amended fsDup "q" recDup []
    ⟨1, [(2, [some (F64.finite ⟨5, 0⟩)])]⟩ 2 [some (F64.finite ⟨5, 0⟩)] recDup
    rfl (by decide) (by decide) rfl (by decide)
  exact ⟨h.1, h.2 ⟨1, [((2 : Int), [some (F64.finite ⟨5, 0⟩)]),
    ((2 : Int), [some (F64.finite ⟨7, 0⟩)])]⟩ (by decide)⟩

/-- C10: the two duplicate-timestamp regimes of the merge.  First write
(no file at the path): the table is created with `time` as PRIMARY KEY, so
a batch with duplicate timestamps makes the whole merge fail and no
snapshot is written.  Subsequent merge (file present, width matching): no
key constraint exists, and for every timestamp `t` the produced snapshot
retains ALL rows at `t` from the old snapshot and from the batch. -/
theorem duplicate_policy_split (fs : FileSystem) (path : String)
    (first : Record) (rest : List Record) (snap : Snapshot) (t : Int) :
    (lookupFs fs path = none →
      ¬ ((first :: rest).map (fun r => r.time)).Nodup →
      mergeNewRecords fs path (first :: rest) =
        (Except.error MergeErr.primaryKeyViolation, fs)) ∧
    (lookupFs fs path = some snap →
      recordFields first = snap.width →
      ∀ sA, lookupFs (mergeNewRecords fs path (first :: rest)).2 path = some sA →
        sA.rows.countP (fun row => row.1 == t) =
          snap.rows.countP (fun row => row.1 == t) +
            ((first :: rest).map (insertedRow (recordFields first))).countP
              (fun row => row.1 == t)) := by
  constructor
  · intro hl hn
    simp only [mergeNewRecords, List.head?_cons, hl]
    rw [if_neg hn]
  · intro hl hw sA hsA
    simp only [mergeNewRecords, List.head?_cons, hl] at hsA
    rw [if_pos hw] at hsA
    rw [lookupFs_updateFs] at hsA
    cases hsA
    show (List.insertionSort timeLe _).countP _ = _
    rw [(List.perm_insertionSort timeLe _).countP_eq]
    exact List.countP_append _ _ _

theorem duplicate_policy_split_witness :
    (mergeNewRecords [] "w" [recEq1, recEq2] =
      (Except.error MergeErr.primaryKeyViolation, [])) ∧
    ([((3 : Int), [some (F64.finite ⟨5, 0⟩)]),
      ((3 : Int), [some (F64.finite ⟨7, 0⟩)])].countP (fun row => row.1 == 3) =
      [((3 : Int), [some (F64.finite ⟨5, 0⟩)])].countP (fun row => row.1 == 3) +
        [((3 : Int), [some (F64.finite ⟨7, 0⟩)])].countP (fun row => row.1 == 3)) := by
  refine ⟨(duplicate_policy_split [] "w" recEq1 [recEq2] ⟨0, []⟩ 0).1 rfl (by decide), ?_⟩
  exact (duplicate_policy_split [("w", snapT3)] "w" recT3 [] snapT3 3).2 rfl (by decide)
    ⟨1, [((3 : Int), [some (F64.finite ⟨5, 0⟩)]),
         ((3 : Int), [some (F64.finite ⟨7, 0⟩)])]⟩ (by decide)

/-- C4 (code bug, `main.rs` lines 195-198): the payload `"1.0, 2.0, x"`
fails to decode, and the source's `return Ok(())` — against its own
`// TODO show the error and dispose the row` — aborts the WHOLE drain
cycle: with the malformed entry pending, `load_wal` reports success having
merged NOTHING (the well-formed entry's destination is never written),
while the same cycle without the malformed entry does write it. -/
theorem malformed_payload_aborts_cycle :
    decodePayload "1.0, 2.0, x" = none ∧
    loadWal [] "r" [walGood, walBad] = (Except.ok (), []) ∧
    loadWal [] "r" [walGood] =
      (Except.ok (), [("r/a/s", ⟨1, [(0, [some (F64.finite ⟨3, 0⟩)])]⟩)]) := by
  refine ⟨by decide, by decide, by decide⟩

/-- C5 counterexample: a successful first-write merge performs exactly one
file operation — a direct write to the destination path — and the spec's
write-to-temporary-then-rename discipline is absent from the trace. -/
theorem snapshot_write_counterexample :
    mergeFsOps [] "p" [recOne] = [FsOp.write "p"] ∧
    specAtomicReplace (mergeFsOps [] "p" [recOne]) "p" = false := by
  refine ⟨by decide, by decide⟩

/-- C5 amended: `merge_new_records` never renames and never writes
anywhere but the destination path itself — the `COPY ... TO` at line 52
targets `parquet_path` directly, so the atomic temp-file replacement the
spec requires does not happen (and nothing in the routine protects the
prior snapshot if that write fails). -/
theorem snapshot_write_amended (fs : FileSystem) (path : String)
    (recs : List Record) :
    (mergeFsOps fs path recs).all (fun op =>
      match op with
      | FsOp.rename _ _ => false
      | FsOp.write q => q == path
      | FsOp.read q => q == path) = true := by
  cases h : recs.head? with
  | none => simp [mergeFsOps, h]
  | some first =>
    cases hl : lookupFs fs path with
    | some snap =>
      by_cases hw : recordFields first = snap.width
      · simp [mergeFsOps, h, hl, hw]
      · simp [mergeFsOps, h, hl, hw]
    | none =>
      by_cases hn : ((recs.map (fun r => r.time)).Nodup : Prop)
      · simp [mergeFsOps, h, hl, hn]
      · simp [mergeFsOps, h, hl, hn]

/-- C6 counterexample: a cycle whose merge fails (two drained entries land
on the same fresh destination with the code's constant placeholder
timestamp, violating the PRIMARY KEY) makes the loop return that error —
the process exits and the following cycle is never run. -/
theorem drain_loop_exit_counterexample :
    mainLoop [] "r" [[⟨"a", "s", "1.0"⟩, ⟨"a", "s", "2.0"⟩], [⟨"b", "s", "1.5"⟩]] =
      Except.error MergeErr.primaryKeyViolation := by decide

/-- C6 amended: an error returned by `load_wal` (a merge failure reaching
the `?` at `main.rs` line 230) terminates the drain loop at that cycle;
only cycles whose `load_wal` returns `Ok` let the loop continue.  (Payload
parse failures are swallowed inside `load_wal` and do not reach the loop.) -/
theorem drain_loop_exit_amended (fs : FileSystem) (dataRoot : String)
    (c : List WalRow) (rest : List (List WalRow)) (e : MergeErr)
    (h : (loadWal fs dataRoot c).1 = Except.error e) :
    mainLoop fs dataRoot (c :: rest) = Except.error e := by
  unfold mainLoop
  rcases hw : loadWal fs dataRoot c with ⟨r, fsA⟩
  rw [hw] at h
  simp only at h
  rw [h]

theorem drain_loop_exit_amended_witness :
    mainLoop [] "d" [[⟨"x", "t", "4.0"⟩, ⟨"x", "t", "6.0"⟩]] =
      Except.error MergeErr.primaryKeyViolation :=
  drain_loop_exit_amended [] "d" [⟨"x", "t", "4.0"⟩, ⟨"x", "t", "6.0"⟩] []
    MergeErr.primaryKeyViolation (by decide)

/-- C7: the serialized cells of one tuple are exactly the record's first
`fields` values followed by `NULL` markers up to width `fields`: shorter
rows are padded with trailing `NULL`s, longer rows are truncated to the
first `fields` values. -/
theorem compose_row_padding (fields : Nat) (record : Record) :
    recordCells fields record =
      (record.values.take fields).map formatF64 ++
        List.replicate (fields - record.values.length) "NULL" := by
  induction fields with
  | zero => simp [recordCells]
  | succ n ih =>
    have hstep : recordCells (n + 1) record =
        recordCells n record ++ [match record.values.get? n with
          | some v => formatF64 v
          | none => "NULL"] := by
      simp [recordCells, List.range_succ]
    rw [hstep, ih]
    by_cases hn : n < record.values.length
    · have ha : record.values[n]? = some record.values[n] :=
        List.getElem?_eq_getElem hn
      have h1 : n - record.values.length = 0 := by omega
      have h2 : n + 1 - record.values.length = 0 := by omega
      rw [List.take_succ, h1, h2, List.get?_eq_getElem?, ha]
      simp
      rw [List.take_succ]
      simp [ha]
    · have hlen : record.values.length ≤ n := by omega
      have h2 : n + 1 - record.values.length = (n - record.values.length) + 1 := by
        omega
      rw [List.get?_eq_getElem?, List.getElem?_eq_none hlen, h2,
        List.replicate_succ', List.take_of_length_le hlen,
        List.take_of_length_le (by omega)]
      simp

/-- The parse loop of the decoder succeeds iff every field parses. -/
theorem parseValues_isSome (l : List (List Char)) :
    (parseValues l).isSome = l.all (fun f => (rustParseF64 f).isSome) := by
  induction l with
  | nil => rfl
  | cons v rest ih =>
    cases hv : rustParseF64 v with
    | none => simp [parseValues, hv]
    | some x => simp [parseValues, hv, ih]

/-- C9 counterexample: the payload `"1.0, inf"` decodes successfully —
Rust's `f64` parse accepts `inf` — although its second field does not
parse as a FINITE float64, where the claim demands a `MalformedPayload`
failure. -/
theorem payload_decoder_counterexample :
    decodePayload "1.0, inf" = some [F64.finite ⟨1, 0⟩, F64.inf false] ∧
    specAllFinite "1.0, inf" = false := by
  refine ⟨by decide, by decide⟩

/-- C9 amended: the decoder succeeds exactly when every comma-separated,
whitespace-trimmed field parses as a float64 under Rust's grammar —
non-finite results (`inf`, `infinity`, `nan` literals and overflowing
decimals) are accepted, not rejected. -/
theorem payload_decoder_amended (payload : String) :
    (decodePayload payload).isSome = allFieldsParse payload :=
  parseValues_isSome (payloadFields payload)
